import Mathlib

/-!
Shallow embedding of `src/script.js`, a single-page student-record manager
backed by an IndexedDB object store `students` with primary key `id`
(auto-incremented) and a unique secondary index on `studentId`.

The store is modelled as a list of records kept sorted by primary key
(IndexedDB cursors iterate in ascending key order) together with the
auto-increment key generator `nextId`.  String helpers (`trim`,
`toLowerCase`, `includes`) are embedded as structurally recursive functions
on the character list so that every definition evaluates inside the kernel.
-/

namespace StudentApp

/-- Embedding of JavaScript `String.prototype.trim`: drop whitespace from
both ends of the character list. -/
def trimChars (l : List Char) : List Char :=
  ((l.dropWhile Char.isWhitespace).reverse.dropWhile Char.isWhitespace).reverse

/-- Embedding of `value.trim()` on a JavaScript string. -/
def strTrim (s : String) : String :=
  ⟨trimChars s.toList⟩

/-- Embedding of `value.toLowerCase()` (ASCII case folding). -/
def strLower (s : String) : String :=
  ⟨s.toList.map Char.toLower⟩

/-- Does `hay` start with `needle`? Helper for the substring test. -/
def listStarts : List Char → List Char → Bool
  | [], _ => true
  | _ :: _, [] => false
  | a :: as, b :: bs => a == b && listStarts as bs

/-- Does `hay` contain `needle` as a contiguous substring? -/
def listIncludes : List Char → List Char → Bool
  | [], needle => needle.isEmpty
  | h :: t, needle => listStarts needle (h :: t) || listIncludes t needle

/-- Embedding of JavaScript `hay.includes(needle)` on strings. -/
def strIncludes (hay needle : String) : Bool :=
  listIncludes hay.toList needle.toList

/-- Is a character allowed by the regex character class `[^\s@]`? -/
def emailChar (c : Char) : Bool :=
  !c.isWhitespace && c != '@'

/-- Does the character list contain a dot that is neither its first nor its
last element?  This is exactly when a list of `[^\s@]` characters can be
split as `[^\s@]+ "." [^\s@]+`. -/
def hasInteriorDot : List Char → Bool
  | [] => false
  | _ :: t => dotNotLast t
where
  /-- A dot occurs at a position other than the last. -/
  dotNotLast : List Char → Bool
    | [] => false
    | [_] => false
    | c :: rest => c == '.' || dotNotLast rest

/-- Embedding of the email test `/^[^\s@]+@[^\s@]+\.[^\s@]+$/.test(email)`
from `script.js` line 88.  The local part is everything before the first
`@` (the class `[^\s@]` excludes `@`, so the match must split at the first
one); the remainder must be `@`-free, whitespace-free, and contain an
interior dot splitting it into two nonempty halves. -/
def emailValid (s : String) : Bool :=
  let l := s.toList
  let a := l.takeWhile (fun c => c != '@')
  match l.dropWhile (fun c => c != '@') with
  | '@' :: b =>
      !a.isEmpty && a.all emailChar && b.all emailChar && hasInteriorDot b
  | _ => false

/-- A persisted student record: the store-assigned primary key `id` plus the
five business fields of the form. -/
structure StudentRecord where
  id : Nat
  studentId : String
  fullname : String
  email : String
  course : String
  yearLevel : String
  deriving Repr, DecidableEq

/-- The five business fields as read from the form (before an `id` is
attached). -/
structure Fields where
  studentId : String
  fullname : String
  email : String
  course : String
  yearLevel : String
  deriving Repr, DecidableEq

/-- Attach a primary key to form fields, as the store does on insert and as
`form.onsubmit` does with `record.id = parseInt(recordId)`. -/
def mkRecord (id : Nat) (f : Fields) : StudentRecord :=
  ⟨id, f.studentId, f.fullname, f.email, f.course, f.yearLevel⟩

/-- The IndexedDB object store `students`: records in ascending primary-key
order plus the auto-increment key generator. -/
structure Store where
  records : List StudentRecord
  nextId : Nat
  deriving Repr, DecidableEq

/-- A freshly created database: no records, key generator at 1 (IndexedDB
auto-increment keys start at 1). -/
def Store.empty : Store := ⟨[], 1⟩

/-- Insert a record at its primary-key position, replacing any existing
record with the same `id` (the key-path semantics of IndexedDB `put`). -/
def insertByKey (r : StudentRecord) : List StudentRecord → List StudentRecord
  | [] => [r]
  | x :: xs =>
      if r.id < x.id then r :: x :: xs
      else if r.id = x.id then r :: xs
      else x :: insertByKey r xs

/-- Embedding of `store.get(id)`: the record with primary key `id`, if
any. -/
def Store.get (s : Store) (id : Nat) : Option StudentRecord :=
  s.records.find? (fun r => r.id == id)

/-- Embedding of `index.get(studentId)` on the unique secondary index: the
first record (in key order) whose `studentId` matches. -/
def indexGetStudentId (s : Store) (sid : String) : Option StudentRecord :=
  s.records.find? (fun r => r.studentId == sid)

/-- Embedding of `store.add(record)` with an auto-incremented key: fails
with `ConstraintError` when the unique index on `studentId` already holds
the value; otherwise persists the record under the fresh key and returns
the new store and key. -/
def Store.add (s : Store) (f : Fields) : Except String (Store × Nat) :=
  if s.records.any (fun r => r.studentId == f.studentId) then
    .error "ConstraintError"
  else
    .ok (⟨insertByKey (mkRecord s.nextId f) s.records, s.nextId + 1⟩, s.nextId)

/-- Embedding of `store.put(record)`: fails with `ConstraintError` when a
record with a different primary key already holds the same `studentId`
(unique-index violation); otherwise upserts at `record.id` and bumps the
key generator past an explicitly supplied key, as IndexedDB does. -/
def Store.put (s : Store) (r : StudentRecord) : Except String Store :=
  if s.records.any (fun x => x.studentId == r.studentId && x.id != r.id) then
    .error "ConstraintError"
  else
    .ok ⟨insertByKey r s.records, max s.nextId (r.id + 1)⟩

/-- Embedding of `store.delete(id)`: removes the record with that key;
succeeds whether or not it exists. -/
def Store.erase (s : Store) (id : Nat) : Store :=
  ⟨s.records.filter (fun r => r.id != id), s.nextId⟩

/-- Embedding of `openCursor()` iteration: all records in ascending
primary-key order. -/
def iterateAll (s : Store) : List StudentRecord :=
  s.records

/-- Kind of a `showMessage` notification. -/
inductive MsgKind where
  | success
  | error
  deriving Repr, DecidableEq

/-- A `showMessage(message, type)` call: the text and its kind. -/
structure Notice where
  text : String
  kind : MsgKind
  deriving Repr, DecidableEq

/-- Embedding of `createRecord` (script.js 153-173): `store.add`, a success
message on success, an error message when the unique constraint rejects the
add, leaving the store unchanged. -/
def createRecord (s : Store) (f : Fields) : Store × Notice :=
  match s.add f with
  | .ok (s', _) => (s', ⟨"Student record added successfully!", .success⟩)
  | .error _ => (s, ⟨"Failed to add record. Student ID might already exist.", .error⟩)

/-- Embedding of `updateRecord` (script.js 268-288): `store.put`, a success
message on success, an error message on failure, leaving the store
unchanged on failure. -/
def updateRecord (s : Store) (r : StudentRecord) : Store × Notice :=
  match s.put r with
  | .ok s' => (s', ⟨"Record for " ++ r.fullname ++ " updated successfully!", .success⟩)
  | .error _ => (s, ⟨"Failed to update record.", .error⟩)

/-- Embedding of `deleteRecord` (script.js 302-318): `store.delete(id)`,
which always succeeds. -/
def deleteRecord (s : Store) (id : Nat) : Store × Notice :=
  (s.erase id, ⟨"Record deleted successfully!", .success⟩)

/-- Outcome of the secondary-index read inside `isStudentIdUnique`: a
record found, no record found, or the read request erroring. -/
inductive LookupOutcome where
  | found (r : StudentRecord)
  | notFound
  | readError
  deriving Repr, DecidableEq

/-- The resolution logic of `isStudentIdUnique` (script.js 127-145) as a
function of the index-read outcome: no record resolves `true`; a record
resolves `true` exactly when its `id` strictly equals `excludeId`
(`existingRecord.id === excludeId`, false when `excludeId` is `null`); a
read error resolves `false`. -/
def resolveUnique (res : LookupOutcome) (excludeId : Option Nat) : Bool :=
  match res with
  | .notFound => true
  | .found r =>
      match excludeId with
      | some e => r.id == e
      | none => false
  | .readError => false

/-- The successful index read against the store. -/
def storeLookup (s : Store) (sid : String) : LookupOutcome :=
  match indexGetStudentId s sid with
  | some r => .found r
  | none => .notFound

/-- Embedding of `isStudentIdUnique(studentId, excludeId)` (script.js
119-147) when the index read succeeds. -/
def isStudentIdUnique (s : Store) (sid : String) (excludeId : Option Nat) : Bool :=
  resolveUnique (storeLookup s sid) excludeId

/-- The raw form state read by `form.onsubmit`: the hidden record id
(`none` when the field is the empty string, i.e. Create mode), the cached
`dataset.originalId`, and the five field values. -/
structure FormInput where
  recordId : Option Nat
  originalStudentId : String
  studentId : String
  fullname : String
  email : String
  course : String
  yearLevel : String
  deriving Repr, DecidableEq

/-- The field values as `form.onsubmit` assembles them: `studentId`,
`fullname` and `email` trimmed, the two select values taken verbatim. -/
def trimmedFields (inp : FormInput) : Fields :=
  ⟨strTrim inp.studentId, strTrim inp.fullname, strTrim inp.email,
    inp.course, inp.yearLevel⟩

/-- The empty-field check of `form.onsubmit` (script.js 80-85): the first
key, in `for ... in` insertion order, whose value is falsy (the empty
string). -/
def firstEmptyField (f : Fields) : Option String :=
  if f.studentId == "" then some "studentId"
  else if f.fullname == "" then some "fullname"
  else if f.email == "" then some "email"
  else if f.course == "" then some "course"
  else if f.yearLevel == "" then some "yearLevel"
  else none

/-- Result of one form submission: the store afterwards, the notification
shown, and whether the uniqueness check was actually performed (the `await
isStudentIdUnique` call was reached). -/
structure SubmitOutcome where
  store : Store
  notice : Notice
  checkedUnique : Bool
  deriving Repr, DecidableEq

/-- The create-or-update tail of `form.onsubmit` (script.js 103-110):
update when a record id is present, create otherwise. -/
def finishSubmit (s : Store) (inp : FormInput) (f : Fields) (checked : Bool) :
    SubmitOutcome :=
  match inp.recordId with
  | some id =>
      let p := updateRecord s (mkRecord id f)
      ⟨p.1, p.2, checked⟩
  | none =>
      let p := createRecord s f
      ⟨p.1, p.2, checked⟩

/-- Embedding of `form.onsubmit` (script.js 67-111), parameterised by the
outcome of the secondary-index read so that the request-error path is
expressible: trim, empty-field check, email check, then — on create or
when the submitted `studentId` differs from the cached original — the
uniqueness check, then create or update. -/
def submitWith (lookup : String → LookupOutcome) (s : Store) (inp : FormInput) :
    SubmitOutcome :=
  let f := trimmedFields inp
  match firstEmptyField f with
  | some key =>
      ⟨s, ⟨"Please fill out the " ++ key ++ " field.", .error⟩, false⟩
  | none =>
      if !emailValid f.email then
        ⟨s, ⟨"Please enter a valid email address.", .error⟩, false⟩
      else if inp.recordId.isNone ||
          (inp.recordId.isSome && inp.originalStudentId != f.studentId) then
        if !resolveUnique (lookup f.studentId) inp.recordId then
          ⟨s, ⟨"Student ID " ++ f.studentId ++ " already exists.", .error⟩, true⟩
        else
          finishSubmit s inp f true
      else
        finishSubmit s inp f false

/-- One form submission against the store, with the index read performed
against the store itself. -/
def submit (s : Store) (inp : FormInput) : SubmitOutcome :=
  submitWith (storeLookup s) s inp

/-- The filter predicate of `displayRecords` (script.js 192-195), applied
to the already-lowercased filter text: empty filter matches everything,
otherwise a case-insensitive substring match on `fullname`, `studentId` or
`course`. -/
def matchesFilter (filt : String) (r : StudentRecord) : Bool :=
  filt == "" ||
    strIncludes (strLower r.fullname) filt ||
    strIncludes (strLower r.studentId) filt ||
    strIncludes (strLower r.course) filt

/-- Embedding of the record-selection part of `displayRecords(filterText)`
(script.js 179-225): cursor over all records in key order, keeping those
that match the lowercased filter text. -/
def filterRecords (s : Store) (filterText : String) : List StudentRecord :=
  s.records.filter (matchesFilter (strLower filterText))

/-- The store invariant maintained by the operations: records sorted
strictly by primary key, pairwise-distinct `studentId` values (the unique
secondary index), and every key below the generator. -/
@[reducible] def Store.WF (s : Store) : Prop :=
  s.records.Pairwise (fun a b => a.id < b.id) ∧
  s.records.Pairwise (fun a b => a.studentId ≠ b.studentId) ∧
  ∀ r ∈ s.records, r.id < s.nextId

/-- Every persisted record has all five business fields nonempty. -/
@[reducible] def Store.FieldsNonempty (s : Store) : Prop :=
  ∀ r ∈ s.records, r.studentId ≠ "" ∧ r.fullname ≠ "" ∧ r.email ≠ "" ∧
    r.course ≠ "" ∧ r.yearLevel ≠ ""

/-! Helper lemmas about the store primitives. -/

/-- In a list with pairwise-distinct `studentId` values, two members with
the same `studentId` are the same record. -/
theorem pairwise_studentId_eq {l : List StudentRecord}
    (h : l.Pairwise (fun a b => a.studentId ≠ b.studentId))
    {a b : StudentRecord} (ha : a ∈ l) (hb : b ∈ l)
    (hab : a.studentId = b.studentId) : a = b := by
  induction l with
  | nil => cases ha
  | cons x t ih =>
      rcases List.pairwise_cons.mp h with ⟨hx, ht⟩
      rcases List.mem_cons.mp ha with rfl | ha'
      · rcases List.mem_cons.mp hb with rfl | hb'
        · rfl
        · exact absurd hab (hx b hb')
      · rcases List.mem_cons.mp hb with rfl | hb'
        · exact absurd hab.symm (hx a ha')
        · exact ih ht ha' hb'

/-- Membership after a keyed insert: the new record or an old one. -/
theorem mem_insertByKey {r x : StudentRecord} {l : List StudentRecord}
    (h : x ∈ insertByKey r l) : x = r ∨ x ∈ l := by
  induction l with
  | nil =>
      simp only [insertByKey, List.mem_singleton] at h
      exact Or.inl h
  | cons y t ih =>
      simp only [insertByKey] at h
      by_cases h1 : r.id < y.id
      · rw [if_pos h1] at h
        rcases List.mem_cons.mp h with rfl | h'
        · exact Or.inl rfl
        · exact Or.inr h'
      · rw [if_neg h1] at h
        by_cases h2 : r.id = y.id
        · rw [if_pos h2] at h
          rcases List.mem_cons.mp h with rfl | h'
          · exact Or.inl rfl
          · exact Or.inr (List.mem_cons_of_mem _ h')
        · rw [if_neg h2] at h
          rcases List.mem_cons.mp h with rfl | h'
          · exact Or.inr (List.mem_cons_self _ _)
          · rcases ih h' with h'' | h''
            · exact Or.inl h''
            · exact Or.inr (List.mem_cons_of_mem _ h'')

/-- Inserting a record whose key is larger than every existing key appends
it at the end. -/
theorem insertByKey_append {r : StudentRecord} {l : List StudentRecord}
    (h : ∀ x ∈ l, x.id < r.id) : insertByKey r l = l ++ [r] := by
  induction l with
  | nil => rfl
  | cons y t ih =>
      have hy := h y (List.mem_cons_self y t)
      simp only [insertByKey]
      rw [if_neg (by omega), if_neg (by omega),
        ih (fun x hx => h x (List.mem_cons_of_mem _ hx))]
      rfl

/-- Looking up the inserted key finds the inserted record. -/
theorem find?_insertByKey_self (r : StudentRecord) (l : List StudentRecord) :
    (insertByKey r l).find? (fun x => x.id == r.id) = some r := by
  induction l with
  | nil => simp [insertByKey, List.find?]
  | cons y t ih =>
      simp only [insertByKey]
      by_cases h1 : r.id < y.id
      · rw [if_pos h1]
        exact List.find?_cons_of_pos _ (by simp)
      · rw [if_neg h1]
        by_cases h2 : r.id = y.id
        · rw [if_pos h2]
          exact List.find?_cons_of_pos _ (by simp)
        · rw [if_neg h2, List.find?_cons_of_neg _ (by simp; omega)]
          exact ih

/-- Looking up any other key is unaffected by a keyed insert. -/
theorem find?_insertByKey_ne {j : Nat} (r : StudentRecord) (l : List StudentRecord)
    (hj : j ≠ r.id) :
    (insertByKey r l).find? (fun x => x.id == j) = l.find? (fun x => x.id == j) := by
  induction l with
  | nil =>
      simp only [insertByKey]
      rw [List.find?_cons_of_neg _ (by simp; omega)]
  | cons y t ih =>
      simp only [insertByKey]
      by_cases h1 : r.id < y.id
      · rw [if_pos h1, List.find?_cons_of_neg _ (by simp; omega)]
      · rw [if_neg h1]
        by_cases h2 : r.id = y.id
        · rw [if_pos h2]
          by_cases hy : y.id = j
          · omega
          · rw [List.find?_cons_of_neg _ (by simp; omega),
              List.find?_cons_of_neg _ (by simp; omega)]
        · by_cases hy : y.id = j
          · rw [if_neg h2, List.find?_cons_of_pos _ (by simp [hy]),
              List.find?_cons_of_pos _ (by simp [hy])]
          · rw [if_neg h2, List.find?_cons_of_neg _ (by simp; omega),
              List.find?_cons_of_neg _ (by simp; omega)]
            exact ih

/-- A successful `add` inserts the record under the generator key and bumps
the generator. -/
theorem add_ok {s : Store} {f : Fields} {s' : Store} {n : Nat}
    (h : s.add f = .ok (s', n)) :
    s'.records = insertByKey (mkRecord s.nextId f) s.records ∧
      s'.nextId = s.nextId + 1 ∧ n = s.nextId := by
  unfold Store.add at h
  split at h
  · cases h
  · cases h
    exact ⟨rfl, rfl, rfl⟩

/-- A successful `put` inserts the record at its key. -/
theorem put_ok {s : Store} {r : StudentRecord} {s' : Store}
    (h : s.put r = .ok s') : s'.records = insertByKey r s.records := by
  unfold Store.put at h
  split at h
  · cases h
  · cases h
    rfl

/-- An `add` succeeds exactly when no stored record already holds the
`studentId`. -/
theorem add_fresh {s : Store} {f : Fields}
    (h : ∀ r ∈ s.records, r.studentId ≠ f.studentId) :
    s.add f = .ok (⟨insertByKey (mkRecord s.nextId f) s.records, s.nextId + 1⟩, s.nextId) := by
  have hc : (s.records.any fun r => r.studentId == f.studentId) = false := by
    rw [List.any_eq_false]
    intro x hx
    simp [h x hx]
  simp [Store.add, hc]

/-- A `put` succeeds when no record with a different key holds the same
`studentId`. -/
theorem put_fresh {s : Store} {r : StudentRecord}
    (h : ∀ x ∈ s.records, x.studentId = r.studentId → x.id = r.id) :
    s.put r = .ok ⟨insertByKey r s.records, max s.nextId (r.id + 1)⟩ := by
  have hc : (s.records.any fun x => x.studentId == r.studentId && x.id != r.id) = false := by
    rw [List.any_eq_false]
    intro x hx
    simp only [Bool.and_eq_true, beq_iff_eq, bne_iff_ne, ne_eq, not_and, not_not]
    exact h x hx
  simp [Store.put, hc]

/-- The empty-field check passes exactly when all five fields are
nonempty. -/
theorem firstEmptyField_eq_none {f : Fields} :
    firstEmptyField f = none ↔
      f.studentId ≠ "" ∧ f.fullname ≠ "" ∧ f.email ≠ "" ∧
        f.course ≠ "" ∧ f.yearLevel ≠ "" := by
  unfold firstEmptyField
  split_ifs with h1 h2 h3 h4 h5 <;> simp_all

/-- A string passing the email test is nonempty. -/
theorem emailValid_ne_empty {s : String} (h : emailValid s = true) : s ≠ "" := by
  intro he
  subst he
  exact absurd h (by decide)

/-- Lowercasing preserves (non)emptiness. -/
theorem strLower_ne_empty {t : String} (h : t ≠ "") : strLower t ≠ "" := by
  intro h'
  apply h
  cases t with
  | mk d =>
      have hd : d.map Char.toLower = [] := congrArg String.data h'
      rw [List.map_eq_nil_iff] at hd
      rw [hd]

/-! Concrete fixtures used by the witnesses. -/

/-- A sample persisted record. -/
def demoRec : StudentRecord := ⟨1, "S1", "Ann Lee", "a@b.com", "BSIT", "1"⟩

/-- A store holding exactly `demoRec`, generator at 2. -/
def demoStore : Store := ⟨[demoRec], 2⟩

/-- A Create-mode submission with a fresh student id and padded input. -/
def demoInput : FormInput := ⟨none, "", " S2 ", "Bob Cruz", "b@c.io", "BSCS", "2"⟩

/-- A submission whose `fullname` trims to empty. -/
def badEmpty : FormInput := ⟨none, "", "S9", "  ", "x@y.zz", "BSIT", "1"⟩

/-- A submission with a malformed email. -/
def badEmail : FormInput := ⟨none, "", "S9", "Bob Cruz", "not-an-email", "BSIT", "1"⟩

/-- A Create-mode submission reusing the stored student id. -/
def badDup : FormInput := ⟨none, "", "S1", "Bob Cruz", "b@c.io", "BSIT", "1"⟩

/-! Claim theorems. -/

/-- C1: `isStudentIdUnique` decides uniqueness by secondary-index lookup
with self-exclusion: on a well-formed store, every stored record's own
`studentId` is accepted when its own `id` is excluded, and for any
`studentId` and `excludeId` the check returns `false` exactly when some
record with that `studentId` exists whose `id` differs from the excluded
one. -/
theorem isStudentIdUnique_spec (s : Store) (h : s.WF) :
    (∀ R ∈ s.records, isStudentIdUnique s R.studentId (some R.id) = true) ∧
    (∀ sid ex, isStudentIdUnique s sid ex = false ↔
      ∃ r ∈ s.records, r.studentId = sid ∧ some r.id ≠ ex) := by
  obtain ⟨-, hsid, -⟩ := h
  constructor
  · intro R hR
    unfold isStudentIdUnique storeLookup indexGetStudentId
    cases hfind : s.records.find? (fun r => r.studentId == R.studentId) with
    | none =>
        have := List.find?_eq_none.mp hfind R hR
        simp at this
    | some r =>
        have hmem := List.mem_of_find?_eq_some hfind
        have hpr : r.studentId = R.studentId := by
          simpa using List.find?_some hfind
        have hrR : r = R := pairwise_studentId_eq hsid hmem hR hpr
        subst hrR
        simp [resolveUnique]
  · intro sid ex
    unfold isStudentIdUnique storeLookup indexGetStudentId
    cases hfind : s.records.find? (fun r => r.studentId == sid) with
    | none =>
        have hno := List.find?_eq_none.mp hfind
        simp only [resolveUnique]
        constructor
        · intro hfalse
          cases hfalse
        · rintro ⟨r, hr, hsid', -⟩
          exact absurd (by simp [hsid']) (hno r hr)
    | some r =>
        have hmem := List.mem_of_find?_eq_some hfind
        have hpr : r.studentId = sid := by
          simpa using List.find?_some hfind
        constructor
        · intro hfalse
          refine ⟨r, hmem, hpr, ?_⟩
          cases ex with
          | none => simp
          | some e =>
              simp only [resolveUnique] at hfalse
              simp only [ne_eq, Option.some.injEq]
              intro he
              rw [he] at hfalse
              simp at hfalse
        · rintro ⟨r', hr', hsid', hne⟩
          have hr'r : r' = r := pairwise_studentId_eq hsid hr' hmem (hsid'.trans hpr.symm)
          subst hr'r
          cases ex with
          | none => simp [resolveUnique]
          | some e =>
              simp only [resolveUnique]
              simp only [ne_eq, Option.some.injEq] at hne
              simp [hne]

/-- C1 witness: on the one-record demo store, the stored record excludes
itself, and its `studentId` is reported non-unique for a Create-mode
check. -/
theorem isStudentIdUnique_spec_witness :
    isStudentIdUnique demoStore "S1" (some 1) = true ∧
    isStudentIdUnique demoStore "S1" none = false :=
  ⟨(isStudentIdUnique_spec demoStore (by decide)).1 demoRec (by decide),
   ((isStudentIdUnique_spec demoStore (by decide)).2 "S1" none).mpr
     ⟨demoRec, by decide, by decide, by decide⟩⟩

/-- C3: an empty filter returns every stored record; a nonempty filter
returns exactly the records where the lowercased text is a substring of
the lowercased `fullname`, `studentId` or `course`; the output keeps the
cursor (`iterateAll`) order. -/
theorem filter_spec (s : Store) (t : String) :
    filterRecords s "" = iterateAll s ∧
    (t ≠ "" → ∀ r, r ∈ filterRecords s t ↔ r ∈ iterateAll s ∧
      (strIncludes (strLower r.fullname) (strLower t) = true ∨
       strIncludes (strLower r.studentId) (strLower t) = true ∨
       strIncludes (strLower r.course) (strLower t) = true)) ∧
    List.Sublist (filterRecords s t) (iterateAll s) := by
  refine ⟨?_, ?_, List.filter_sublist s.records⟩
  · unfold filterRecords iterateAll
    rw [List.filter_eq_self]
    intro r _
    have h0 : strLower "" = "" := rfl
    simp [matchesFilter, h0]
  · intro ht r
    have hlt : strLower t ≠ "" := strLower_ne_empty ht
    unfold filterRecords iterateAll
    rw [List.mem_filter]
    constructor
    · rintro ⟨hr, hm⟩
      refine ⟨hr, ?_⟩
      simp only [matchesFilter, Bool.or_eq_true, beq_iff_eq] at hm
      rcases hm with ((h | h) | h) | h
      · exact absurd h hlt
      · exact Or.inl h
      · exact Or.inr (Or.inl h)
      · exact Or.inr (Or.inr h)
    · rintro ⟨hr, hm⟩
      refine ⟨hr, ?_⟩
      simp only [matchesFilter, Bool.or_eq_true, beq_iff_eq]
      rcases hm with h | h | h
      · exact Or.inl (Or.inl (Or.inr h))
      · exact Or.inl (Or.inr h)
      · exact Or.inr h

/-- C3 witness: on the demo store the empty filter returns the whole list,
the search text selects by case-insensitive course match, and the result
is a sublist of the iteration order. -/
theorem filter_spec_witness :
    filterRecords demoStore "" = iterateAll demoStore ∧
    (demoRec ∈ filterRecords demoStore "bsit" ↔ demoRec ∈ iterateAll demoStore ∧
      (strIncludes (strLower demoRec.fullname) (strLower "bsit") = true ∨
       strIncludes (strLower demoRec.studentId) (strLower "bsit") = true ∨
       strIncludes (strLower demoRec.course) (strLower "bsit") = true)) ∧
    List.Sublist (filterRecords demoStore "bsit") (iterateAll demoStore) :=
  ⟨(filter_spec demoStore "bsit").1,
   (filter_spec demoStore "bsit").2.1 (by decide) demoRec,
   (filter_spec demoStore "bsit").2.2⟩

/-- C8: `deleteRecord` is idempotent: both of two successive deletions of
the same key report success, the second deletion changes nothing, and no
record with that key remains. -/
theorem deleteRecord_idempotent (s : Store) (id : Nat) :
    (deleteRecord s id).2 = ⟨"Record deleted successfully!", .success⟩ ∧
    (deleteRecord (deleteRecord s id).1 id).2 =
      ⟨"Record deleted successfully!", .success⟩ ∧
    (deleteRecord (deleteRecord s id).1 id).1 = (deleteRecord s id).1 ∧
    Store.get (deleteRecord s id).1 id = none := by
  refine ⟨rfl, rfl, ?_, ?_⟩
  · simp only [deleteRecord, Store.erase]
    rw [List.filter_filter]
    simp
  · simp only [deleteRecord, Store.erase, Store.get]
    rw [List.find?_eq_none]
    intro x hx
    have := (List.mem_filter.mp hx).2
    simp_all

/-- C4: validation is fail-fast in the order field presence, email shape,
uniqueness; each failure emits the specific error notification (naming the
field or reason), leaves the store untouched, and aborts before any
persistence call.  The empty-field message wins even when the email is
also malformed, and the email message wins even when the id is also a
duplicate. -/
theorem submit_failfast (s : Store) (inp : FormInput) :
    (∀ key, firstEmptyField (trimmedFields inp) = some key →
      submit s inp =
        ⟨s, ⟨"Please fill out the " ++ key ++ " field.", .error⟩, false⟩) ∧
    (firstEmptyField (trimmedFields inp) = none →
      emailValid (trimmedFields inp).email = false →
      submit s inp =
        ⟨s, ⟨"Please enter a valid email address.", .error⟩, false⟩) ∧
    (firstEmptyField (trimmedFields inp) = none →
      emailValid (trimmedFields inp).email = true →
      (inp.recordId.isNone ||
        (inp.recordId.isSome && inp.originalStudentId != (trimmedFields inp).studentId)) = true →
      isStudentIdUnique s (trimmedFields inp).studentId inp.recordId = false →
      submit s inp =
        ⟨s, ⟨"Student ID " ++ (trimmedFields inp).studentId ++ " already exists.", .error⟩,
          true⟩) := by
  refine ⟨?_, ?_, ?_⟩
  · intro key hkey
    simp [submit, submitWith, hkey]
  · intro hkey hmail
    simp [submit, submitWith, hkey, hmail]
  · intro hkey hmail hcond huniq
    simp only [isStudentIdUnique] at huniq
    simp [submit, submitWith, hkey, hmail, hcond, huniq]

/-- C4 witness: on the demo store, an empty `fullname`, a malformed email
and a duplicate `S1` each abort with their own error message and an
unchanged store. -/
theorem submit_failfast_witness :
    submit demoStore badEmpty =
      ⟨demoStore, ⟨"Please fill out the fullname field.", .error⟩, false⟩ ∧
    submit demoStore badEmail =
      ⟨demoStore, ⟨"Please enter a valid email address.", .error⟩, false⟩ ∧
    submit demoStore badDup =
      ⟨demoStore, ⟨"Student ID S1 already exists.", .error⟩, true⟩ :=
  ⟨(submit_failfast demoStore badEmpty).1 "fullname" (by decide),
   (submit_failfast demoStore badEmail).2.1 (by decide) (by decide),
   (submit_failfast demoStore badDup).2.2 (by decide) (by decide) (by decide) (by decide)⟩

/-- C2: a Create-mode submission (no editing id) with valid fields and a
fresh `studentId` appends exactly one record, carrying the store's fresh
generator key and the trimmed field values, bumps the generator, and
reports success; all previously stored records are untouched (the result
is the old list plus the new record). -/
theorem submit_create_spec (s : Store) (inp : FormInput)
    (hwf : s.WF)
    (hid : inp.recordId = none)
    (hne : firstEmptyField (trimmedFields inp) = none)
    (hmail : emailValid (trimmedFields inp).email = true)
    (hfresh : ∀ r ∈ s.records, r.studentId ≠ (trimmedFields inp).studentId) :
    (submit s inp).store.records =
      s.records ++ [mkRecord s.nextId (trimmedFields inp)] ∧
    (submit s inp).store.nextId = s.nextId + 1 ∧
    (∀ r ∈ s.records, r.id ≠ s.nextId) ∧
    (submit s inp).notice = ⟨"Student record added successfully!", .success⟩ := by
  have hlook : storeLookup s (trimmedFields inp).studentId = .notFound := by
    unfold storeLookup indexGetStudentId
    rw [List.find?_eq_none.mpr]
    intro x hx
    simp [hfresh x hx]
  have hadd := add_fresh (s := s) (f := trimmedFields inp) hfresh
  have happ : insertByKey (mkRecord s.nextId (trimmedFields inp)) s.records =
      s.records ++ [mkRecord s.nextId (trimmedFields inp)] :=
    insertByKey_append (fun x hx => hwf.2.2 x hx)
  have hsub : submit s inp =
      ⟨⟨s.records ++ [mkRecord s.nextId (trimmedFields inp)], s.nextId + 1⟩,
        ⟨"Student record added successfully!", .success⟩, true⟩ := by
    simp [submit, submitWith, hne, hmail, hid, hlook, resolveUnique,
      finishSubmit, createRecord, hadd, happ]
  refine ⟨by rw [hsub], by rw [hsub], ?_, by rw [hsub]⟩
  intro r hr
  have := hwf.2.2 r hr
  omega

/-- C2 witness: submitting the padded fresh input against the demo store
appends exactly the trimmed record under the store-assigned key 2 and
reports success. -/
theorem submit_create_spec_witness :
    (submit demoStore demoInput).store.records =
      demoStore.records ++ [mkRecord demoStore.nextId (trimmedFields demoInput)] ∧
    (submit demoStore demoInput).store.nextId = demoStore.nextId + 1 ∧
    (submit demoStore demoInput).notice =
      ⟨"Student record added successfully!", .success⟩ :=
  ⟨(submit_create_spec demoStore demoInput (by decide) rfl (by decide) (by decide)
      (by decide)).1,
   (submit_create_spec demoStore demoInput (by decide) rfl (by decide) (by decide)
      (by decide)).2.1,
   (submit_create_spec demoStore demoInput (by decide) rfl (by decide) (by decide)
      (by decide)).2.2.2⟩

/-- The create-or-update tail preserves the all-fields-nonempty invariant
when the submitted fields are themselves nonempty. -/
theorem finishSubmit_nonempty (s : Store) (inp : FormInput) (f : Fields) (c : Bool)
    (h : Store.FieldsNonempty s)
    (hf : f.studentId ≠ "" ∧ f.fullname ≠ "" ∧ f.email ≠ "" ∧
      f.course ≠ "" ∧ f.yearLevel ≠ "") :
    Store.FieldsNonempty (finishSubmit s inp f c).store := by
  unfold finishSubmit
  cases inp.recordId with
  | some id =>
      simp only [updateRecord]
      cases hp : Store.put s (mkRecord id f) with
      | ok s' =>
          intro r' hr'
          simp only at hr'
          rw [put_ok hp] at hr'
          rcases mem_insertByKey hr' with rfl | hmem
          · exact hf
          · exact h r' hmem
      | error e => exact h
  | none =>
      simp only [createRecord]
      cases ha : Store.add s f with
      | ok p =>
          intro r' hr'
          simp only at hr'
          have ha' : s.add f = .ok (p.1, p.2) := by rw [ha]
          rw [(add_ok ha').1] at hr'
          rcases mem_insertByKey hr' with rfl | hmem
          · exact hf
          · exact h r' hmem
      | error e => exact h

/-- C5: a submission is accepted only when all five fields are nonempty
after trimming (the presence gate is exactly that conjunction; when it
fails the store is untouched and an error is shown), and consequently
every record persisted through `submit` keeps all five business fields
nonempty. -/
theorem submit_nonempty (s : Store) (inp : FormInput)
    (h : Store.FieldsNonempty s) :
    (firstEmptyField (trimmedFields inp) = none ↔
      (trimmedFields inp).studentId ≠ "" ∧ (trimmedFields inp).fullname ≠ "" ∧
      (trimmedFields inp).email ≠ "" ∧ (trimmedFields inp).course ≠ "" ∧
      (trimmedFields inp).yearLevel ≠ "") ∧
    (firstEmptyField (trimmedFields inp) ≠ none →
      (submit s inp).store = s ∧ (submit s inp).notice.kind = .error) ∧
    Store.FieldsNonempty (submit s inp).store := by
  refine ⟨firstEmptyField_eq_none, ?_, ?_⟩
  · intro hk
    cases hkey : firstEmptyField (trimmedFields inp) with
    | none => exact absurd hkey hk
    | some key =>
        constructor <;> simp [submit, submitWith, hkey]
  · cases hkey : firstEmptyField (trimmedFields inp) with
    | some key =>
        have : (submit s inp).store = s := by simp [submit, submitWith, hkey]
        rw [this]
        exact h
    | none =>
        have hf := firstEmptyField_eq_none.mp hkey
        simp only [submit, submitWith, hkey]
        split
        · exact h
        · split
          · split
            · exact h
            · exact finishSubmit_nonempty s inp (trimmedFields inp) true h hf
          · exact finishSubmit_nonempty s inp (trimmedFields inp) false h hf

/-- C5 witness: the presence gate rejects the blank-name submission with
an unchanged store, the gate characterisation holds at that input, and the
record persisted in the demo store has all five fields nonempty. -/
theorem submit_nonempty_witness :
    (firstEmptyField (trimmedFields badEmpty) = none ↔
      (trimmedFields badEmpty).studentId ≠ "" ∧ (trimmedFields badEmpty).fullname ≠ "" ∧
      (trimmedFields badEmpty).email ≠ "" ∧ (trimmedFields badEmpty).course ≠ "" ∧
      (trimmedFields badEmpty).yearLevel ≠ "") ∧
    ((submit demoStore badEmpty).store = demoStore ∧
      (submit demoStore badEmpty).notice.kind = .error) ∧
    (demoRec.studentId ≠ "" ∧ demoRec.fullname ≠ "" ∧ demoRec.email ≠ "" ∧
      demoRec.course ≠ "" ∧ demoRec.yearLevel ≠ "") :=
  ⟨(submit_nonempty demoStore badEmpty (by decide)).1,
   (submit_nonempty demoStore badEmpty (by decide)).2.1 (by decide),
   (submit_nonempty demoStore badEmpty (by decide)).2.2 demoRec (by decide)⟩

/-- C6: updating a record without changing its `studentId` (the submitted
value equals the cached original, which equals the stored record's value)
skips the uniqueness check entirely (`checkedUnique = false`) and the
update succeeds, replacing the record at that id with the submitted fields
— so its `studentId` is unchanged — and touching no other record; and the
skip is safe, because the exclude-self branch of `isStudentIdUnique` would
have accepted the unchanged value anyway. -/
theorem submit_update_skip (s : Store) (inp : FormInput) (i : Nat)
    (old : StudentRecord)
    (hwf : s.WF)
    (hid : inp.recordId = some i)
    (hold : s.get i = some old)
    (horig : inp.originalStudentId = old.studentId)
    (hsame : (trimmedFields inp).studentId = old.studentId)
    (hne : firstEmptyField (trimmedFields inp) = none)
    (hmail : emailValid (trimmedFields inp).email = true) :
    (submit s inp).checkedUnique = false ∧
    (submit s inp).notice =
      ⟨"Record for " ++ (trimmedFields inp).fullname ++ " updated successfully!",
        .success⟩ ∧
    Store.get (submit s inp).store i = some (mkRecord i (trimmedFields inp)) ∧
    (∀ j, j ≠ i → Store.get (submit s inp).store j = Store.get s j) ∧
    (mkRecord i (trimmedFields inp)).studentId = old.studentId ∧
    isStudentIdUnique s (trimmedFields inp).studentId (some i) = true := by
  obtain ⟨-, hsid, -⟩ := hwf
  have hmem : old ∈ s.records := List.mem_of_find?_eq_some hold
  have holdid : old.id = i := by simpa using List.find?_some hold
  have hfree : ∀ x ∈ s.records,
      x.studentId = (mkRecord i (trimmedFields inp)).studentId →
      x.id = (mkRecord i (trimmedFields inp)).id := by
    intro x hx hxsid
    have hxold : x = old :=
      pairwise_studentId_eq hsid hx hmem (by simpa [mkRecord, hsame] using hxsid)
    simp only [mkRecord]
    rw [hxold]
    exact holdid
  have hput := put_fresh hfree
  have hsub : submit s inp =
      ⟨⟨insertByKey (mkRecord i (trimmedFields inp)) s.records,
          max s.nextId (i + 1)⟩,
        ⟨"Record for " ++ (trimmedFields inp).fullname ++ " updated successfully!",
          .success⟩, false⟩ := by
    have hbne : (inp.originalStudentId != (trimmedFields inp).studentId) = false := by
      simp [horig, hsame]
    simp only [mkRecord] at hput
    simp [submit, submitWith, hne, hmail, hid, hbne, finishSubmit,
      updateRecord, hput, mkRecord]
  refine ⟨by rw [hsub], by rw [hsub], ?_, ?_, by simp [mkRecord, hsame], ?_⟩
  · rw [hsub]
    unfold Store.get
    simpa [mkRecord] using
      find?_insertByKey_self (mkRecord i (trimmedFields inp)) s.records
  · intro j hj
    rw [hsub]
    unfold Store.get
    exact find?_insertByKey_ne _ _ (by simpa [mkRecord] using hj)
  · unfold isStudentIdUnique storeLookup indexGetStudentId
    cases hfind : s.records.find?
        (fun r => r.studentId == (trimmedFields inp).studentId) with
    | none =>
        have := List.find?_eq_none.mp hfind old hmem
        simp [hsame] at this
    | some r =>
        have hmem' := List.mem_of_find?_eq_some hfind
        have hpr : r.studentId = (trimmedFields inp).studentId := by
          simpa using List.find?_some hfind
        have hrold : r = old :=
          pairwise_studentId_eq hsid hmem' hmem (hpr.trans hsame)
        subst hrold
        simp [resolveUnique, holdid]

/-- An edit of the demo record changing only the name, with the cached
original id equal to the submitted one. -/
def editInput : FormInput := ⟨some 1, "S1", "S1", "Ann Cruz", "a@b.com", "BSIT", "1"⟩

/-- C6 witness: editing the demo record's name only performs no uniqueness
check, succeeds, keeps the `studentId`, and the skipped check would have
returned true. -/
theorem submit_update_skip_witness :
    (submit demoStore editInput).checkedUnique = false ∧
    (submit demoStore editInput).notice =
      ⟨"Record for Ann Cruz updated successfully!", .success⟩ ∧
    Store.get (submit demoStore editInput).store 1 =
      some (mkRecord 1 (trimmedFields editInput)) ∧
    Store.get (submit demoStore editInput).store 5 = Store.get demoStore 5 ∧
    isStudentIdUnique demoStore (trimmedFields editInput).studentId (some 1) = true :=
  ⟨(submit_update_skip demoStore editInput 1 demoRec (by decide) rfl (by decide)
      (by decide) (by decide) (by decide) (by decide)).1,
   (submit_update_skip demoStore editInput 1 demoRec (by decide) rfl (by decide)
      (by decide) (by decide) (by decide) (by decide)).2.1,
   (submit_update_skip demoStore editInput 1 demoRec (by decide) rfl (by decide)
      (by decide) (by decide) (by decide) (by decide)).2.2.1,
   (submit_update_skip demoStore editInput 1 demoRec (by decide) rfl (by decide)
      (by decide) (by decide) (by decide) (by decide)).2.2.2.1 5 (by decide),
   (submit_update_skip demoStore editInput 1 demoRec (by decide) rfl (by decide)
      (by decide) (by decide) (by decide) (by decide)).2.2.2.2.2⟩

/-- C7 (amended): provided no record under a different key holds the
written record's `studentId`, `Put` succeeds whether or not a record
exists at that key — replacing it in full or creating it — and `Get` on
that key then returns a record equal to the one written, all other keys
reading unchanged. -/
theorem put_roundtrip (s : Store) (r : StudentRecord)
    (hfree : ∀ x ∈ s.records, x.studentId = r.studentId → x.id = r.id) :
    (updateRecord s r).2 =
      ⟨"Record for " ++ r.fullname ++ " updated successfully!", .success⟩ ∧
    Store.get (updateRecord s r).1 r.id = some r ∧
    (∀ j, j ≠ r.id → Store.get (updateRecord s r).1 j = Store.get s j) := by
  have hput := put_fresh hfree
  refine ⟨?_, ?_, ?_⟩
  · simp [updateRecord, hput]
  · simp only [updateRecord, hput]
    exact find?_insertByKey_self r s.records
  · intro j hj
    simp only [updateRecord, hput]
    exact find?_insertByKey_ne _ _ hj

/-- A two-record store whose second record is about to be given the first
record's `studentId`. -/
def storeC7 : Store :=
  ⟨[⟨1, "S1", "Ann Lee", "a@b.com", "BSIT", "1"⟩,
    ⟨2, "S2", "Bob Cruz", "b@c.io", "BSCS", "2"⟩], 3⟩

/-- A full-record write at key 2 that collides with key 1 on the unique
`studentId` index. -/
def recC7 : StudentRecord := ⟨2, "S1", "Bob Cruz", "b@c.io", "BSCS", "2"⟩

/-- C7 counterexample: `Put` is not an unconditional upsert — writing a
record whose `studentId` belongs to a different key fails on the unique
index, so the following `Get` does not return the written record. -/
theorem put_roundtrip_cex :
    Store.get (updateRecord storeC7 recC7).1 2 ≠ some recC7 ∧
    (updateRecord storeC7 recC7).2 = ⟨"Failed to update record.", .error⟩ := by
  decide

/-- C7 witness: putting a record at the fresh key 3 of the demo store
succeeds, reads back equal to what was written, and leaves key 1 alone. -/
theorem put_roundtrip_witness :
    (updateRecord demoStore ⟨3, "S3", "Cara Diaz", "c@d.org", "BSIT", "3"⟩).2 =
      ⟨"Record for Cara Diaz updated successfully!", .success⟩ ∧
    Store.get (updateRecord demoStore ⟨3, "S3", "Cara Diaz", "c@d.org", "BSIT", "3"⟩).1 3 =
      some ⟨3, "S3", "Cara Diaz", "c@d.org", "BSIT", "3"⟩ ∧
    Store.get (updateRecord demoStore ⟨3, "S3", "Cara Diaz", "c@d.org", "BSIT", "3"⟩).1 1 =
      Store.get demoStore 1 :=
  ⟨(put_roundtrip demoStore ⟨3, "S3", "Cara Diaz", "c@d.org", "BSIT", "3"⟩ (by decide)).1,
   (put_roundtrip demoStore ⟨3, "S3", "Cara Diaz", "c@d.org", "BSIT", "3"⟩ (by decide)).2.1,
   (put_roundtrip demoStore ⟨3, "S3", "Cara Diaz", "c@d.org", "BSIT", "3"⟩ (by decide)).2.2
     1 (by decide)⟩

/-- C9: when the secondary-index read inside `isStudentIdUnique` errors,
the promise resolves `false` rather than propagating the failure, so a
submission whose validation reaches the uniqueness check reports the
duplicate-identifier message with an unchanged store instead of a
persistence error. -/
theorem readError_reported_as_duplicate (s : Store) (inp : FormInput)
    (hne : firstEmptyField (trimmedFields inp) = none)
    (hmail : emailValid (trimmedFields inp).email = true)
    (hcond : (inp.recordId.isNone ||
      (inp.recordId.isSome && inp.originalStudentId != (trimmedFields inp).studentId)) = true) :
    (∀ ex, resolveUnique .readError ex = false) ∧
    submitWith (fun _ => .readError) s inp =
      ⟨s, ⟨"Student ID " ++ (trimmedFields inp).studentId ++ " already exists.", .error⟩,
        true⟩ := by
  refine ⟨fun ex => rfl, ?_⟩
  simp [submitWith, hne, hmail, hcond, resolveUnique]

/-- C9 witness: at the concrete fresh-input submission, the erroring read
resolves not-unique and is surfaced as the duplicate-id message on an
unchanged store. -/
theorem readError_reported_as_duplicate_witness :
    resolveUnique .readError (some 1) = false ∧
    submitWith (fun _ => .readError) demoStore demoInput =
      ⟨demoStore, ⟨"Student ID S2 already exists.", .error⟩, true⟩ :=
  ⟨(readError_reported_as_duplicate demoStore demoInput (by decide) (by decide)
      (by decide)).1 (some 1),
   (readError_reported_as_duplicate demoStore demoInput (by decide) (by decide)
      (by decide)).2⟩

/-- C10: the uniqueness comparison is exact (case-sensitive): whenever no
stored record's `studentId` is literally equal to the candidate,
`isStudentIdUnique` returns true — even if a stored value differs only in
letter case — and `createRecord` then persists the candidate, so both may
coexist; the search filter, by contrast, matches `studentId`
case-insensitively (a lowercased substring match suffices for
inclusion). -/
theorem uniqueness_case_sensitive (s : Store) (sid : String) (ex : Option Nat)
    (t : String)
    (hfresh : ∀ r ∈ s.records, r.studentId ≠ sid) :
    isStudentIdUnique s sid ex = true ∧
    (∀ f : Fields, f.studentId = sid →
      (createRecord s f).2 = ⟨"Student record added successfully!", .success⟩) ∧
    (∀ r ∈ s.records, strIncludes (strLower r.studentId) (strLower t) = true →
      r ∈ filterRecords s t) := by
  refine ⟨?_, ?_, ?_⟩
  · unfold isStudentIdUnique storeLookup indexGetStudentId
    rw [List.find?_eq_none.mpr]
    · rfl
    · intro x hx
      simp [hfresh x hx]
  · intro f hf
    have hadd := add_fresh (s := s) (f := f) (by rw [hf]; exact hfresh)
    simp [createRecord, hadd]
  · intro r hr hinc
    unfold filterRecords
    rw [List.mem_filter]
    exact ⟨hr, by simp [matchesFilter, hinc]⟩

/-- A store whose sole record uses the lowercase student id. -/
def caseStore : Store := ⟨[⟨1, "s1", "Ann Lee", "a@b.com", "BSIT", "1"⟩], 2⟩

/-- Fields reusing the stored student id up to letter case. -/
def caseFields : Fields := ⟨"S1", "Bob Cruz", "b@c.io", "BSCS", "2"⟩

/-- C10 witness: with `s1` stored, the uppercase `S1` passes the
uniqueness check and is persisted alongside it, while searching for `S1`
still matches the lowercase record. -/
theorem uniqueness_case_sensitive_witness :
    isStudentIdUnique caseStore "S1" none = true ∧
    (createRecord caseStore caseFields).2 =
      ⟨"Student record added successfully!", .success⟩ ∧
    (⟨1, "s1", "Ann Lee", "a@b.com", "BSIT", "1"⟩ : StudentRecord) ∈
      filterRecords caseStore "S1" :=
  ⟨(uniqueness_case_sensitive caseStore "S1" none "S1" (by decide)).1,
   (uniqueness_case_sensitive caseStore "S1" none "S1" (by decide)).2.1
     caseFields rfl,
   (uniqueness_case_sensitive caseStore "S1" none "S1" (by decide)).2.2
     ⟨1, "s1", "Ann Lee", "a@b.com", "BSIT", "1"⟩ (by decide) (by decide)⟩

end StudentApp
